import Mathlib

/-!
# Verification of `examples/serial_to_tcp_bridge.js`

A shallow embedding of the serial-to-TCP bridge script. The script is
event-driven: a serial port fans inbound byte chunks out to a set of TCP
client sockets, and forwards bytes from any client socket to the serial
port. We model the bridge as a step function on an explicit state
(the client set and the serial open flag), with events for each registered
handler and an action trace recording the observable effects of a handler
run (client writes, console messages, destroy calls, process exit).

Clients are identified by natural numbers. The per-pass behaviour of the
outside world (whether a given client's `destroyed` flag is set, whether
`client.write` throws, whether `client.destroy` throws) is supplied as an
environment carried by the event, since in the script these are properties
of the socket objects at the moment the handler runs.
-/

namespace Bridge

/-- A byte chunk, as delivered by a `data` event. -/
abbrev Chunk := List Nat

/-- Per-pass environment: the state of the socket objects at the moment a
handler runs. `destroyed c` models `client.destroyed`; `writeThrows c`
models `client.write(data)` throwing; `destroyThrows c` models
`client.destroy()` throwing. -/
structure PassEnv where
  destroyed : Nat → Bool
  writeThrows : Nat → Bool
  destroyThrows : Nat → Bool

/-- Bridge state: `tcpClients` models the `tcpClients` JS `Set` (iteration
in insertion order, unique membership); `serialOpen` models
`serialPortInstance.isOpen`. -/
structure St where
  tcpClients : List Nat
  serialOpen : Bool
  deriving DecidableEq, Repr

/-- Events, one per registered handler in the script. -/
inductive Ev where
  | serialData (chunk : Chunk) (env : PassEnv)
  | serialError (msg : String)
  | serialClose
  | connect (c : Nat)
  | sockData (c : Nat) (chunk : Chunk)
  | sockError (c : Nat) (msg : String)
  | sockClose (c : Nat)
  | serverError (msg : String)
  | sigint (destroyThrows : Nat → Bool)
  | sigterm (destroyThrows : Nat → Bool)

/-- Observable actions a handler can perform. -/
inductive Act where
  | deliver (c : Nat) (chunk : Chunk)
  | logWriteError (c : Nat)
  | destroy (c : Nat)
  | logSerialError (msg : String)
  | logSerialClosed
  | logConnected (c : Nat)
  | serialWrite (chunk : Chunk)
  | warnSerialNotOpen
  | logClientError (c : Nat) (msg : String)
  | logDisconnected (c : Nat)
  | logServerError (msg : String)
  | logShuttingDown
  | closeSerial
  | closeServer
  | exitProcess (code : Nat)
  deriving DecidableEq, Repr

/-- `client.destroy()` as a fallible call: throws iff the environment says
so. -/
def destroyOutcome (destroyThrows : Nat → Bool) (c : Nat) : Except String Unit :=
  if destroyThrows c then Except.error "destroy failed" else Except.ok ()

/-- The `try { client.destroy() } catch (e) { /- Ignore -/ }` pattern: the
catch block is empty, so nothing is logged and nothing is rethrown in
either case. -/
def ignoringDestroyError : Except String Unit → List Act
  | Except.ok _ => []
  | Except.error _ => []

/-- One iteration of the fan-out `for (const client of tcpClients)` loop
(lines 47-56 of the script): if `client.destroyed` the body does nothing;
otherwise `client.write(data)` is attempted inside a `try`, and on a throw
the catch logs an error and pushes the client onto `deadClients`.
Accumulates (actions so far, deadClients so far). -/
def fanOutStep (env : PassEnv) (chunk : Chunk) (acc : List Act × List Nat) (c : Nat) :
    List Act × List Nat :=
  if env.destroyed c then acc
  else if env.writeThrows c then
    (acc.1 ++ [Act.logWriteError c], acc.2 ++ [c])
  else
    (acc.1 ++ [Act.deliver c chunk], acc.2)

/-- The whole fan-out loop over the client set. -/
def fanOutIter (env : PassEnv) (chunk : Chunk) (clients : List Nat) :
    List Act × List Nat :=
  clients.foldl (fanOutStep env chunk) ([], [])

/-- One iteration of the `deadClients.forEach` cleanup (lines 58-65):
`tcpClients.delete(client)` (modelled as filtering the entry out) followed
by `try { client.destroy() } catch (e) { /- Ignore -/ }`. -/
def removeDeadStep (env : PassEnv) (acc : List Nat × List Act) (c : Nat) :
    List Nat × List Act :=
  (acc.1.filter (fun x => decide (x ≠ c)),
   acc.2 ++ Act.destroy c :: ignoringDestroyError (destroyOutcome env.destroyThrows c))

/-- The whole dead-client cleanup pass. -/
def removeDead (env : PassEnv) (clients dead : List Nat) : List Nat × List Act :=
  dead.foldl (removeDeadStep env) (clients, [])

/-- The teardown body shared by the `SIGINT` and `SIGTERM` handlers
(lines 122-134 and 136-148): log, `serialPortInstance.close()`, destroy
every client in the set (each destroy guarded by a try/catch with an empty
catch), `server.close()`, `process.exit(0)`. -/
def shutdownStep (s : St) (destroyThrows : Nat → Bool) : St × List Act :=
  let destroyActs := s.tcpClients.foldl
    (fun acc c =>
      acc ++ Act.destroy c :: ignoringDestroyError (destroyOutcome destroyThrows c)) []
  ({ s with serialOpen := false },
   Act.logShuttingDown :: Act.closeSerial :: destroyActs
     ++ [Act.closeServer, Act.exitProcess 0])

/-- The bridge's event-handler dispatch: each case is the body of the
corresponding handler registered in the script. -/
def step (s : St) (e : Ev) : St × List Act :=
  match e with
  | Ev.serialData chunk env =>
    if 0 < s.tcpClients.length then
      let iter := fanOutIter env chunk s.tcpClients
      let cln := removeDead env s.tcpClients iter.2
      ({ s with tcpClients := cln.1 }, iter.1 ++ cln.2)
    else
      (s, [])
  | Ev.serialError msg => (s, [Act.logSerialError msg])
  | Ev.serialClose => (s, [Act.logSerialClosed])
  | Ev.connect c =>
    ({ s with tcpClients :=
        if c ∈ s.tcpClients then s.tcpClients else s.tcpClients ++ [c] },
     [Act.logConnected c])
  | Ev.sockData _ chunk =>
    if s.serialOpen then (s, [Act.serialWrite chunk])
    else (s, [Act.warnSerialNotOpen])
  | Ev.sockError c msg => (s, [Act.logClientError c msg])
  | Ev.sockClose c =>
    ({ s with tcpClients := s.tcpClients.filter (fun x => decide (x ≠ c)) },
     [Act.logDisconnected c])
  | Ev.serverError msg => (s, [Act.logServerError msg])
  | Ev.sigint destroyThrows => shutdownStep s destroyThrows
  | Ev.sigterm destroyThrows => shutdownStep s destroyThrows

/-- Actions of the serial-open callback (lines 78-84): on an error, report
and `process.exit(1)`; on success, report the open. -/
inductive OpenAct where
  | logOpenFailed (msg : String)
  | logOpened (path : String)
  | exitProcess (code : Nat)
  deriving DecidableEq, Repr

/-- The callback passed to `serialPortInstance.open` (lines 78-84). -/
def openCallback (path : String) (error : Option String) : List OpenAct :=
  match error with
  | some msg => [OpenAct.logOpenFailed msg, OpenAct.exitProcess 1]
  | none => [OpenAct.logOpened path]

/-- `Array.prototype.indexOf` restricted to string arrays: index of the
first occurrence, `none` standing for JS's `-1`. -/
def jsIndexOfFrom (a : String) : List String → Nat → Option Nat
  | [], _ => none
  | x :: xs, i => if x = a then some i else jsIndexOfFrom a xs (i + 1)

/-- `args.indexOf(flag)`. -/
def jsIndexOf (l : List String) (a : String) : Option Nat :=
  jsIndexOfFrom a l 0

/-- `args[i]`: `none` stands for JS's `undefined`. -/
def jsNth : List String → Nat → Option String
  | [], _ => none
  | x :: _, 0 => some x
  | _ :: xs, n + 1 => jsNth xs n

/-- `getArg` (lines 20-23): `index !== -1 && args[index + 1] ?
args[index + 1] : defaultValue`. A present but empty string following the
flag is falsy in JS, so it yields the default. -/
def getArg (args : List String) (flag defaultValue : String) : String :=
  match jsIndexOf args flag with
  | none => defaultValue
  | some index =>
    match jsNth args (index + 1) with
    | none => defaultValue
    | some v => if v = "" then defaultValue else v

/-- ASCII decimal digit test. -/
def isDigitChar (c : Char) : Bool :=
  decide (48 ≤ c.toNat) && decide (c.toNat ≤ 57)

/-- `parseInt` restricted to canonical decimal numerals (the only use in
the script parses the port argument, default `'5000'`); `none` stands for
`NaN`. -/
def jsParseInt (s : String) : Option Nat :=
  if !s.data.isEmpty && s.data.all isDigitChar then
    some (s.data.foldl (fun n c => n * 10 + (c.toNat - 48)) 0)
  else none

/-- `const serialPort = getArg('--serial-port', '/dev/ttyUSB0')`. -/
def serialPortOf (args : List String) : String :=
  getArg args "--serial-port" "/dev/ttyUSB0"

/-- `const tcpHost = getArg('--tcp-host', '0.0.0.0')`. -/
def tcpHostOf (args : List String) : String :=
  getArg args "--tcp-host" "0.0.0.0"

/-- `const tcpPort = parseInt(getArg('--tcp-port', '5000'))`. -/
def tcpPortOf (args : List String) : Option Nat :=
  jsParseInt (getArg args "--tcp-port" "5000")

/-- `baudRate: 115200` (line 36), a fixed constant. -/
def baudRate : Nat := 115200

/-- The process terminated during this handler run. -/
def processTerminates (acts : List Act) : Prop :=
  ∃ code, Act.exitProcess code ∈ acts

/-- A client is marked dead by the fan-out loop iff its `destroyed` flag is
unset (so the write is attempted) and the write throws. -/
def deadPred (env : PassEnv) (c : Nat) : Bool :=
  !(env.destroyed c) && env.writeThrows c

/-- The action trace of one fan-out loop, client by client. -/
def passActs (env : PassEnv) (chunk : Chunk) : List Nat → List Act
  | [] => []
  | c :: cs =>
    (if env.destroyed c then []
     else if env.writeThrows c then [Act.logWriteError c]
     else [Act.deliver c chunk]) ++ passActs env chunk cs

@[simp]
lemma ignoringDestroyError_eq_nil (r : Except String Unit) :
    ignoringDestroyError r = [] := by
  cases r <;> rfl

lemma fanOut_go (env : PassEnv) (chunk : Chunk) (clients : List Nat)
    (as : List Act) (ds : List Nat) :
    clients.foldl (fanOutStep env chunk) (as, ds) =
      (as ++ passActs env chunk clients, ds ++ clients.filter (deadPred env)) := by
  induction clients generalizing as ds with
  | nil => simp [passActs]
  | cons c cs ih =>
    simp only [List.foldl_cons, fanOutStep, passActs, List.filter_cons, deadPred]
    by_cases hd : env.destroyed c = true
    · simp [hd, ih]
    · simp only [Bool.not_eq_true] at hd
      by_cases hw : env.writeThrows c = true
      · simp [hd, hw, ih]
      · simp only [Bool.not_eq_true] at hw
        simp [hd, hw, ih]

lemma fanOutIter_eq (env : PassEnv) (chunk : Chunk) (clients : List Nat) :
    fanOutIter env chunk clients =
      (passActs env chunk clients, clients.filter (deadPred env)) := by
  simpa using fanOut_go env chunk clients [] []

lemma removeDead_go (env : PassEnv) (dead cs : List Nat) (as : List Act) :
    dead.foldl (removeDeadStep env) (cs, as) =
      (cs.filter (fun x => decide (x ∉ dead)), as ++ dead.map Act.destroy) := by
  induction dead generalizing cs as with
  | nil => simp
  | cons d ds ih =>
    simp only [List.foldl_cons, removeDeadStep, ignoringDestroyError_eq_nil]
    rw [ih]
    refine Prod.ext ?_ ?_
    · simp only [List.filter_filter]
      refine List.filter_congr ?_
      intro x _
      by_cases h1 : x = d <;> by_cases h2 : x ∈ ds <;> simp [h1, h2]
    · simp

lemma removeDead_eq (env : PassEnv) (clients dead : List Nat) :
    removeDead env clients dead =
      (clients.filter (fun x => decide (x ∉ dead)), dead.map Act.destroy) := by
  simpa using removeDead_go env dead clients []

lemma step_serialData_eq (s : St) (chunk : Chunk) (env : PassEnv)
    (h : s.tcpClients ≠ []) :
    step s (Ev.serialData chunk env) =
      ({ s with tcpClients := s.tcpClients.filter (fun x => !(deadPred env x)) },
       passActs env chunk s.tcpClients
         ++ (s.tcpClients.filter (deadPred env)).map Act.destroy) := by
  have hlen : 0 < s.tcpClients.length := List.length_pos.mpr h
  simp only [step, if_pos hlen, fanOutIter_eq, removeDead_eq]
  refine Prod.ext ?_ rfl
  simp only
  congr 1
  refine List.filter_congr ?_
  intro x hx
  by_cases hdp : deadPred env x = true
  · have : x ∈ s.tcpClients.filter (deadPred env) := List.mem_filter.mpr ⟨hx, hdp⟩
    simp [this, hdp]
  · have : x ∉ s.tcpClients.filter (deadPred env) := fun hm =>
      hdp (List.mem_filter.mp hm).2
    simp [this, Bool.eq_false_iff.mpr hdp]

lemma shutdown_go (destroyThrows : Nat → Bool) (clients : List Nat)
    (as : List Act) :
    clients.foldl
      (fun acc c =>
        acc ++ Act.destroy c :: ignoringDestroyError (destroyOutcome destroyThrows c)) as
      = as ++ clients.map Act.destroy := by
  induction clients generalizing as with
  | nil => simp
  | cons c cs ih =>
    rw [List.foldl_cons,
      show as ++ Act.destroy c :: ignoringDestroyError (destroyOutcome destroyThrows c)
          = as ++ [Act.destroy c] by simp,
      ih]
    simp

lemma shutdownStep_eq (s : St) (destroyThrows : Nat → Bool) :
    shutdownStep s destroyThrows =
      ({ s with serialOpen := false },
       Act.logShuttingDown :: Act.closeSerial :: s.tcpClients.map Act.destroy
         ++ [Act.closeServer, Act.exitProcess 0]) := by
  simp only [shutdownStep]
  rw [shutdown_go]
  simp

lemma mem_passActs_deliver (env : PassEnv) (ch : Chunk) (cs : List Nat)
    (c : Nat) (d : Chunk) :
    Act.deliver c d ∈ passActs env ch cs ↔
      d = ch ∧ c ∈ cs ∧ env.destroyed c = false ∧ env.writeThrows c = false := by
  induction cs with
  | nil => simp [passActs]
  | cons a as ih =>
    simp only [passActs, List.mem_append, ih, List.mem_cons]
    by_cases hd : env.destroyed a = true
    · simp only [hd, if_true, List.not_mem_nil, false_or]
      constructor
      · rintro ⟨hdc, hc, h1, h2⟩
        refine ⟨hdc, Or.inr hc, h1, h2⟩
      · rintro ⟨hdc, hc | hc, h1, h2⟩
        · exact absurd h1 (by rw [hc, hd]; simp)
        · exact ⟨hdc, hc, h1, h2⟩
    · simp only [Bool.not_eq_true] at hd
      by_cases hw : env.writeThrows a = true
      · simp only [hd, hw, if_false, if_true, Bool.false_eq_true, List.mem_singleton]
        constructor
        · rintro (h | ⟨hdc, hc, h1, h2⟩)
          · exact absurd h (by simp)
          · exact ⟨hdc, Or.inr hc, h1, h2⟩
        · rintro ⟨hdc, hc | hc, h1, h2⟩
          · exact absurd h2 (by rw [hc, hw]; simp)
          · exact Or.inr ⟨hdc, hc, h1, h2⟩
      · simp only [Bool.not_eq_true] at hw
        simp only [hd, hw, if_false, Bool.false_eq_true, List.mem_singleton]
        constructor
        · rintro (h | ⟨hdc, hc, h1, h2⟩)
          · obtain ⟨h1, h2⟩ := Act.deliver.inj h
            exact ⟨h2, Or.inl h1, h1 ▸ hd, h1 ▸ hw⟩
          · exact ⟨hdc, Or.inr hc, h1, h2⟩
        · rintro ⟨hdc, hc | hc, h1, h2⟩
          · exact Or.inl (by rw [hdc, hc])
          · exact Or.inr ⟨hdc, hc, h1, h2⟩

lemma destroy_not_mem_passActs (env : PassEnv) (ch : Chunk) (cs : List Nat)
    (c : Nat) :
    Act.destroy c ∉ passActs env ch cs := by
  induction cs with
  | nil => simp [passActs]
  | cons a as ih =>
    simp only [passActs, List.mem_append]
    rintro (h | h)
    · by_cases hd : env.destroyed a = true
      · simp [hd] at h
      · simp only [Bool.not_eq_true] at hd
        by_cases hw : env.writeThrows a = true
        · simp [hd, hw] at h
        · simp only [Bool.not_eq_true] at hw
          simp [hd, hw] at h
    · exact ih h

lemma passActs_ext (d w f g : Nat → Bool) (chunk : Chunk) (cs : List Nat) :
    passActs ⟨d, w, f⟩ chunk cs = passActs ⟨d, w, g⟩ chunk cs := by
  induction cs with
  | nil => rfl
  | cons c cs ih => simp only [passActs, ih]

lemma jsIndexOfFrom_not_mem (flag : String) (l : List String) (n : Nat)
    (h : flag ∉ l) :
    jsIndexOfFrom flag l n = none := by
  induction l generalizing n with
  | nil => rfl
  | cons x xs ih =>
    have hx : ¬(x = flag) := fun e => h (by simp [e])
    simp only [jsIndexOfFrom, if_neg hx]
    exact ih (n + 1) (fun hm => h (List.mem_cons_of_mem _ hm))

lemma jsIndexOfFrom_append (flag : String) (pre rest : List String) (n : Nat)
    (h : flag ∉ pre) :
    jsIndexOfFrom flag (pre ++ flag :: rest) n = some (n + pre.length) := by
  induction pre generalizing n with
  | nil => simp [jsIndexOfFrom]
  | cons x xs ih =>
    have hx : ¬(x = flag) := fun e => h (by simp [e])
    simp only [List.cons_append, jsIndexOfFrom, if_neg hx, List.append_eq]
    rw [ih (n + 1) (fun hm => h (List.mem_cons_of_mem _ hm))]
    congr 1
    simp only [List.length_cons]
    omega

lemma jsNth_append (pre l : List String) (k : Nat) :
    jsNth (pre ++ l) (pre.length + k) = jsNth l k := by
  induction pre with
  | nil => simp [jsNth]
  | cons x xs ih =>
    have harith : (x :: xs).length + k = (xs.length + k) + 1 := by
      simp only [List.length_cons]; omega
    rw [harith]
    simpa [jsNth] using ih

lemma getArg_absent (args : List String) (flag d : String) (h : flag ∉ args) :
    getArg args flag d = d := by
  unfold getArg jsIndexOf
  rw [jsIndexOfFrom_not_mem flag args 0 h]

lemma getArg_found (pre rest : List String) (flag v d : String)
    (hpre : flag ∉ pre) :
    getArg (pre ++ flag :: v :: rest) flag d = if v = "" then d else v := by
  unfold getArg jsIndexOf
  rw [jsIndexOfFrom_append flag pre (v :: rest) 0 hpre]
  have h1 : jsNth (pre ++ flag :: v :: rest) (pre.length + 1) = some v := by
    simpa [jsNth] using jsNth_append pre (flag :: v :: rest) 1
  simp only [Nat.zero_add, h1]

lemma getArg_last (pre : List String) (flag d : String) (hpre : flag ∉ pre) :
    getArg (pre ++ [flag]) flag d = d := by
  unfold getArg jsIndexOf
  rw [jsIndexOfFrom_append flag pre [] 0 hpre]
  have h1 : jsNth (pre ++ [flag]) (pre.length + 1) = none := by
    simpa [jsNth] using jsNth_append pre [flag] 1
  simp only [Nat.zero_add, h1]

/-- Claim C1 (counterexample): a TCP listener error event — here a bind
failure — is only logged by the `server.on('error')` handler; the full
action trace is the single log line and no process exit occurs, so the
claim that termination follows every listener error report is false on
the code. -/
theorem C1_counterexample :
    step ⟨[], true⟩ (Ev.serverError "listen EADDRINUSE")
        = (⟨[], true⟩, [Act.logServerError "listen EADDRINUSE"])
      ∧ ¬ processTerminates
          (step ⟨[], true⟩ (Ev.serverError "listen EADDRINUSE")).2 := by
  refine ⟨rfl, ?_⟩
  rintro ⟨code, hmem⟩
  simp only [step, List.mem_singleton] at hmem
  exact Act.noConfusion hmem

/-- Claim C1 (amended): for every TCP listener error event, the error is
reported and nothing else happens: the bridge state is unchanged and the
process does not terminate (the handler performs no exit). -/
theorem C1_server_error_only_reported (s : St) (msg : String) :
    step s (Ev.serverError msg) = (s, [Act.logServerError msg])
      ∧ ¬ processTerminates (step s (Ev.serverError msg)).2 := by
  refine ⟨rfl, ?_⟩
  rintro ⟨code, hmem⟩
  simp only [step, List.mem_singleton] at hmem
  exact Act.noConfusion hmem

/-- Claim C1 witness: the amended theorem applied to a concrete state and
message. -/
theorem C1_server_error_only_reported_witness :
    step ⟨[3], true⟩ (Ev.serverError "boom")
      = (⟨[3], true⟩, [Act.logServerError "boom"]) :=
  (C1_server_error_only_reported ⟨[3], true⟩ "boom").1

/-- Claim C5: a data event from a TCP client socket while the serial
endpoint is not open drops the bytes with a warning only: no serial write,
state (including the client set) unchanged, no error raised and no socket
destroyed; while the serial endpoint is open the bytes are forwarded
verbatim to the serial write. -/
theorem C5_serial_closed_drop (s : St) (c : Nat) (chunk : Chunk) :
    (s.serialOpen = false →
        step s (Ev.sockData c chunk) = (s, [Act.warnSerialNotOpen]))
      ∧ (s.serialOpen = true →
        step s (Ev.sockData c chunk) = (s, [Act.serialWrite chunk])) := by
  constructor <;> intro h <;> simp [step, h]

/-- Claim C5 witness: both branches at concrete inputs. -/
theorem C5_serial_closed_drop_witness :
    step ⟨[4], false⟩ (Ev.sockData 4 [9]) = (⟨[4], false⟩, [Act.warnSerialNotOpen])
      ∧ step ⟨[4], true⟩ (Ev.sockData 4 [9]) = (⟨[4], true⟩, [Act.serialWrite [9]]) :=
  ⟨(C5_serial_closed_drop ⟨[4], false⟩ 4 [9]).1 rfl,
   (C5_serial_closed_drop ⟨[4], true⟩ 4 [9]).2 rfl⟩

/-- Claim C6: the serial-open callback reports the error and exits with
status 1 (non-zero) on failure; on success it reports the open and
performs no exit. -/
theorem C6_open_failure_fatal (path : String) (e : Option String) :
    (∀ msg, e = some msg →
        openCallback path e = [OpenAct.logOpenFailed msg, OpenAct.exitProcess 1])
      ∧ (e = none →
        openCallback path e = [OpenAct.logOpened path]
          ∧ ∀ code, OpenAct.exitProcess code ∉ openCallback path e) := by
  constructor
  · rintro msg rfl
    rfl
  · rintro rfl
    refine ⟨rfl, ?_⟩
    intro code hmem
    simp only [openCallback, List.mem_singleton] at hmem
    exact OpenAct.noConfusion hmem

/-- Claim C6 witness: both branches at concrete inputs. -/
theorem C6_open_failure_fatal_witness :
    openCallback "/dev/ttyUSB0" (some "No such file or directory")
        = [OpenAct.logOpenFailed "No such file or directory", OpenAct.exitProcess 1]
      ∧ openCallback "/dev/ttyUSB0" none = [OpenAct.logOpened "/dev/ttyUSB0"] :=
  ⟨(C6_open_failure_fatal "/dev/ttyUSB0" (some "No such file or directory")).1
      "No such file or directory" rfl,
   ((C6_open_failure_fatal "/dev/ttyUSB0" none).2 rfl).1⟩

/-- Claim C8: the SIGINT and SIGTERM handlers coincide and perform, in
order: the shutdown log, closing the serial handle, destroying every
client currently in the set (in set order, destroy errors ignored),
closing the listener, and exiting with status 0 — and nothing else (in
particular, no waiting on in-flight writes appears in the trace). -/
theorem C8_shutdown_teardown_order (s : St) (f : Nat → Bool) :
    step s (Ev.sigint f) = step s (Ev.sigterm f)
      ∧ (step s (Ev.sigint f)).2 =
          Act.logShuttingDown :: Act.closeSerial :: s.tcpClients.map Act.destroy
            ++ [Act.closeServer, Act.exitProcess 0] := by
  refine ⟨rfl, ?_⟩
  show (shutdownStep s f).2 = _
  rw [shutdownStep_eq]

/-- Claim C9: a client-socket error event only reports the error — state
(hence the client set) unchanged and no destroy performed — while the
close event is what removes the socket from the client set, together with
the disconnect report. -/
theorem C9_error_reports_close_removes (s : St) (c : Nat) (msg : String) :
    step s (Ev.sockError c msg) = (s, [Act.logClientError c msg])
      ∧ (∀ x, Act.destroy x ∉ (step s (Ev.sockError c msg)).2)
      ∧ step s (Ev.sockClose c) =
          ({ s with tcpClients := s.tcpClients.filter (fun x => decide (x ≠ c)) },
           [Act.logDisconnected c]) := by
  refine ⟨rfl, ?_, rfl⟩
  intro x hmem
  simp only [step, List.mem_singleton] at hmem
  exact Act.noConfusion hmem

/-- Claim C9 witness: concrete error and close events on a one-client
set. -/
theorem C9_error_reports_close_removes_witness :
    step ⟨[5], true⟩ (Ev.sockError 5 "ECONNRESET")
        = (⟨[5], true⟩, [Act.logClientError 5 "ECONNRESET"])
      ∧ step ⟨[5], true⟩ (Ev.sockClose 5) = (⟨[], true⟩, [Act.logDisconnected 5]) :=
  ⟨(C9_error_reports_close_removes ⟨[5], true⟩ 5 "ECONNRESET").1,
   (C9_error_reports_close_removes ⟨[5], true⟩ 5 "ECONNRESET").2.2⟩

/-- Claim C2 (counterexample): with client set {1, 2}, client 1 already
destroyed and every write succeeding, the fan-out pass leaves client 1 in
the set and destroys nothing — contradicting the claim that a socket
already known to be closed (destroyed) is marked dead and afterwards
removed and force-closed. The loop merely skips a destroyed socket. -/
theorem C2_counterexample :
    step ⟨[1, 2], true⟩
        (Ev.serialData [7] ⟨fun c => decide (c = 1), fun _ => false, fun _ => false⟩)
      = (⟨[1, 2], true⟩, [Act.deliver 2 [7]]) := by
  rfl

/-- Claim C2 (amended): during a fan-out pass over a nonempty client set,
exactly the sockets whose write throws are marked dead; a socket whose
destroyed flag is set is skipped — no write attempted, not marked dead, it
stays in the set and is not destroyed. After iterating, every dead socket
is removed from the client set and destroy is invoked on it. -/
theorem C2_fanout_marks_and_cleans (s : St) (chunk : Chunk) (env : PassEnv)
    (hne : s.tcpClients ≠ []) :
    (step s (Ev.serialData chunk env)).1.tcpClients
        = s.tcpClients.filter (fun c => !(deadPred env c))
      ∧ (∀ c ∈ s.tcpClients, env.destroyed c = false → env.writeThrows c = true →
          c ∉ (step s (Ev.serialData chunk env)).1.tcpClients
            ∧ Act.destroy c ∈ (step s (Ev.serialData chunk env)).2)
      ∧ (∀ c ∈ s.tcpClients, env.destroyed c = true →
          c ∈ (step s (Ev.serialData chunk env)).1.tcpClients
            ∧ Act.destroy c ∉ (step s (Ev.serialData chunk env)).2) := by
  rw [step_serialData_eq s chunk env hne]
  refine ⟨rfl, ?_, ?_⟩
  · intro c hc hd hw
    have hdead : deadPred env c = true := by simp [deadPred, hd, hw]
    constructor
    · intro hmem
      have := (List.mem_filter.mp hmem).2
      simp [hdead] at this
    · simp only [List.mem_append]
      right
      exact List.mem_map_of_mem _ (List.mem_filter.mpr ⟨hc, hdead⟩)
  · intro c hc hd
    have hdead : deadPred env c = false := by simp [deadPred, hd]
    constructor
    · exact List.mem_filter.mpr ⟨hc, by simp [hdead]⟩
    · intro hmem
      rcases List.mem_append.mp hmem with hm | hm
      · exact destroy_not_mem_passActs env chunk s.tcpClients c hm
      · rcases List.mem_map.mp hm with ⟨x, hx, hxe⟩
        obtain rfl := Act.destroy.inj hxe
        exact absurd (List.mem_filter.mp hx).2 (by simp [hdead])

/-- Claim C2 witness: the amended theorem at a concrete pass in which
client 1's write throws and client 2's succeeds. -/
theorem C2_fanout_marks_and_cleans_witness :
    Act.destroy 1 ∈
        (step ⟨[1, 2], true⟩
          (Ev.serialData [7] ⟨fun _ => false, fun c => decide (c = 1), fun _ => false⟩)).2
      ∧ 1 ∉
        (step ⟨[1, 2], true⟩
          (Ev.serialData [7] ⟨fun _ => false, fun c => decide (c = 1), fun _ => false⟩)).1.tcpClients := by
  have h := (C2_fanout_marks_and_cleans ⟨[1, 2], true⟩ [7]
      ⟨fun _ => false, fun c => decide (c = 1), fun _ => false⟩ (by decide)).2.1
      1 (by decide) rfl (by decide)
  exact ⟨h.2, h.1⟩

/-- Claim C3: if client a's write throws in a fan-out pass while client b
is healthy (not destroyed, write succeeds), then b still receives the same
chunk in that pass, b remains in the client set, and a is removed from the
client set after the pass. -/
theorem C3_failure_isolation (s : St) (chunk : Chunk) (env : PassEnv)
    (a b : Nat) (ha : a ∈ s.tcpClients) (hb : b ∈ s.tcpClients)
    (hda : env.destroyed a = false) (hwa : env.writeThrows a = true)
    (hdb : env.destroyed b = false) (hwb : env.writeThrows b = false) :
    Act.deliver b chunk ∈ (step s (Ev.serialData chunk env)).2
      ∧ b ∈ (step s (Ev.serialData chunk env)).1.tcpClients
      ∧ a ∉ (step s (Ev.serialData chunk env)).1.tcpClients := by
  have hne : s.tcpClients ≠ [] := List.ne_nil_of_mem ha
  rw [step_serialData_eq s chunk env hne]
  refine ⟨?_, ?_, ?_⟩
  · simp only [List.mem_append]
    left
    exact (mem_passActs_deliver env chunk s.tcpClients b chunk).mpr ⟨rfl, hb, hdb, hwb⟩
  · exact List.mem_filter.mpr ⟨hb, by simp [deadPred, hdb, hwb]⟩
  · intro hmem
    have := (List.mem_filter.mp hmem).2
    simp [deadPred, hda, hwa] at this

/-- Claim C3 witness: the theorem at a concrete pass with clients 1 and 2
where only client 1's write throws. -/
theorem C3_failure_isolation_witness :
    Act.deliver 2 [9] ∈
        (step ⟨[1, 2], true⟩
          (Ev.serialData [9] ⟨fun _ => false, fun c => decide (c = 1), fun _ => false⟩)).2 :=
  (C3_failure_isolation ⟨[1, 2], true⟩ [9]
      ⟨fun _ => false, fun c => decide (c = 1), fun _ => false⟩ 1 2
      (by decide) (by decide) rfl (by decide) rfl (by decide)).1

/-- Claim C4: a serial data event arriving while the client set is empty is
discarded: the state is unchanged and no action at all is performed; and no
buffering or replay is possible, since a delivery to a client can only
happen during a serial data event carrying that very chunk. -/
theorem C4_empty_set_discard (s : St) (chunk : Chunk) (env : PassEnv)
    (h : s.tcpClients = []) :
    step s (Ev.serialData chunk env) = (s, [])
      ∧ ∀ (s' : St) (e : Ev) (c : Nat) (d : Chunk),
          Act.deliver c d ∈ (step s' e).2 → ∃ env', e = Ev.serialData d env' := by
  constructor
  · simp [step, h]
  · intro s' e c d hmem
    cases e with
    | serialData ch env' =>
      refine ⟨env', ?_⟩
      by_cases hne : s'.tcpClients = []
      · simp [step, hne] at hmem
      · rw [step_serialData_eq s' ch env' hne] at hmem
        rcases List.mem_append.mp hmem with hm | hm
        · obtain ⟨rfl, -, -, -⟩ := (mem_passActs_deliver env' ch s'.tcpClients c d).mp hm
          rfl
        · rcases List.mem_map.mp hm with ⟨x, -, hxe⟩
          exact absurd hxe (by simp)
    | serialError msg => simp [step] at hmem
    | serialClose => simp [step] at hmem
    | connect c' => simp [step] at hmem
    | sockData c' ch =>
      by_cases ho : s'.serialOpen = true
      · simp [step, ho] at hmem
      · simp only [Bool.not_eq_true] at ho
        simp [step, ho] at hmem
    | sockError c' msg => simp [step] at hmem
    | sockClose c' => simp [step] at hmem
    | serverError msg => simp [step] at hmem
    | sigint f =>
      simp only [step] at hmem
      rw [shutdownStep_eq] at hmem
      simp at hmem
    | sigterm f =>
      simp only [step] at hmem
      rw [shutdownStep_eq] at hmem
      simp at hmem

/-- Claim C4 witness: a concrete chunk arriving at an empty client set is
discarded with no action. -/
theorem C4_empty_set_discard_witness :
    step ⟨[], true⟩
        (Ev.serialData [1, 2, 3] ⟨fun _ => false, fun _ => false, fun _ => false⟩)
      = (⟨[], true⟩, []) :=
  (C4_empty_set_discard ⟨[], true⟩ [1, 2, 3]
      ⟨fun _ => false, fun _ => false, fun _ => false⟩ rfl).1

/-- Claim C7: errors thrown by `client.destroy()` are swallowed entirely,
both in the fan-out cleanup and in shutdown teardown: the handler results
(state and full action trace, hence everything reported) are independent
of which destroys throw, and every due destroy is still invoked — no throw
aborts the remainder of the pass or teardown. -/
theorem C7_destroy_errors_swallowed (s : St) (chunk : Chunk)
    (d w f g : Nat → Bool) :
    step s (Ev.serialData chunk ⟨d, w, f⟩) = step s (Ev.serialData chunk ⟨d, w, g⟩)
      ∧ step s (Ev.sigint f) = step s (Ev.sigint g)
      ∧ step s (Ev.sigterm f) = step s (Ev.sigterm g)
      ∧ (∀ c ∈ s.tcpClients, d c = false → w c = true →
          Act.destroy c ∈ (step s (Ev.serialData chunk ⟨d, w, f⟩)).2)
      ∧ (∀ c ∈ s.tcpClients, Act.destroy c ∈ (step s (Ev.sigint f)).2) := by
  refine ⟨?_, ?_, ?_, ?_, ?_⟩
  · by_cases hne : s.tcpClients = []
    · simp [step, hne]
    · rw [step_serialData_eq s chunk ⟨d, w, f⟩ hne,
        step_serialData_eq s chunk ⟨d, w, g⟩ hne,
        passActs_ext d w f g chunk s.tcpClients]
      exact rfl
  · show shutdownStep s f = shutdownStep s g
    rw [shutdownStep_eq, shutdownStep_eq]
  · show shutdownStep s f = shutdownStep s g
    rw [shutdownStep_eq, shutdownStep_eq]
  · intro c hc hd hw
    have hne : s.tcpClients ≠ [] := List.ne_nil_of_mem hc
    rw [step_serialData_eq s chunk ⟨d, w, f⟩ hne]
    simp only [List.mem_append]
    right
    exact List.mem_map_of_mem _
      (List.mem_filter.mpr ⟨hc, by simp [deadPred, hd, hw]⟩)
  · intro c hc
    show Act.destroy c ∈ (shutdownStep s f).2
    rw [shutdownStep_eq]
    exact List.mem_cons_of_mem _ (List.mem_cons_of_mem _
      (List.mem_append_left _ (List.mem_map_of_mem _ hc)))

/-- Claim C7 witness: independence and completeness of destroys at a
concrete state, with one destroy-throwing and one non-throwing
environment. -/
theorem C7_destroy_errors_swallowed_witness :
    step ⟨[1], true⟩ (Ev.serialData [3] ⟨fun _ => false, fun _ => true, fun _ => true⟩)
        = step ⟨[1], true⟩ (Ev.serialData [3] ⟨fun _ => false, fun _ => true, fun _ => false⟩)
      ∧ Act.destroy 1 ∈ (step ⟨[1], true⟩ (Ev.sigint (fun _ => true))).2 := by
  have h := C7_destroy_errors_swallowed ⟨[1], true⟩ [3]
      (fun _ => false) (fun _ => true) (fun _ => true) (fun _ => false)
  exact ⟨h.1, h.2.2.2.2 1 (by decide)⟩

/-- Claim C10: `getArg` returns the element immediately following the
first occurrence of the flag when it exists and is non-empty, and the
default otherwise (flag absent, flag last, or following element the empty
string, the only falsy string); consequently the serial path defaults to
/dev/ttyUSB0, the bind host to 0.0.0.0, the parsed TCP port to 5000, and
the baud rate is the fixed constant 115200. -/
theorem C10_getArg_and_defaults :
    (∀ (pre rest : List String) (flag v d : String),
        flag ∉ pre → ¬(v = "") → getArg (pre ++ flag :: v :: rest) flag d = v)
      ∧ (∀ (args : List String) (flag d : String), flag ∉ args → getArg args flag d = d)
      ∧ (∀ (pre : List String) (flag d : String), flag ∉ pre →
          getArg (pre ++ [flag]) flag d = d)
      ∧ (∀ (pre rest : List String) (flag d : String), flag ∉ pre →
          getArg (pre ++ flag :: "" :: rest) flag d = d)
      ∧ (∀ args : List String, "--serial-port" ∉ args →
          serialPortOf args = "/dev/ttyUSB0")
      ∧ (∀ args : List String, "--tcp-host" ∉ args → tcpHostOf args = "0.0.0.0")
      ∧ (∀ args : List String, "--tcp-port" ∉ args → tcpPortOf args = some 5000)
      ∧ baudRate = 115200 := by
  refine ⟨?_, ?_, ?_, ?_, ?_, ?_, ?_, rfl⟩
  · intro pre rest flag v d hpre hv
    rw [getArg_found pre rest flag v d hpre, if_neg hv]
  · intro args flag d h
    exact getArg_absent args flag d h
  · intro pre flag d h
    exact getArg_last pre flag d h
  · intro pre rest flag d hpre
    rw [getArg_found pre rest flag "" d hpre]
    rfl
  · intro args h
    exact getArg_absent args "--serial-port" "/dev/ttyUSB0" h
  · intro args h
    exact getArg_absent args "--tcp-host" "0.0.0.0" h
  · intro args h
    unfold tcpPortOf
    rw [getArg_absent args "--tcp-port" "5000" h]
    decide

/-- Claim C10 witness: a flag with a following value, and the defaults at
concrete argument lists. -/
theorem C10_getArg_and_defaults_witness :
    getArg ["--tcp-port", "6000"] "--tcp-port" "5000" = "6000"
      ∧ serialPortOf ["--tcp-host", "127.0.0.1"] = "/dev/ttyUSB0"
      ∧ tcpHostOf [] = "0.0.0.0"
      ∧ tcpPortOf [] = some 5000
      ∧ baudRate = 115200 := by
  have h := C10_getArg_and_defaults
  refine ⟨?_, ?_, ?_, ?_, h.2.2.2.2.2.2.2⟩
  · exact h.1 [] [] "--tcp-port" "6000" "5000" (by simp) (by decide)
  · exact h.2.2.2.2.1 ["--tcp-host", "127.0.0.1"] (by decide)
  · exact h.2.2.2.2.2.1 [] (by simp)
  · exact h.2.2.2.2.2.2.1 [] (by simp)

end Bridge
